import Mathlib

/-!
Shallow embedding of the OpenAI realtime client scripts
(src/main.py, src/chat_test.py, src/t2t_WebSockets.py, src/t2t_WebRTC.py,
src/voice_request_response.py) and proofs about the behaviour their
specification claims.

Numeric Python values (numpy float32 buffers) are modelled by exact
rationals; every arithmetic step of the embedded load path
(division by a power of two, averaging two samples) is exact in
binary floating point for the integer sample values allowed by the
wave format, so the rational model is faithful there.  The one place
where float rounding could in principle diverge, the resampled-length
computation, is exercised only at inputs where the float computation
is exact.
-/

/-- Inbound JSON control events dispatched by the WebSocket text handlers
(`on_message` in t2t_WebSockets.py, chat_test.py, main.py).  The
`textDelta` payload is the string produced by
`server_event.get("delta", "")`, hence a missing field is the empty
string. -/
inductive WSEvent
  | sessionCreated
  | itemCreated (roleIsUser : Bool)
  | responseCreated
  | textDelta (delta : String)
  | responseDone
  | other
  deriving DecidableEq, Repr

/-- A raw message delivered to a handler: either malformed (json.loads
raises) or a decoded event. -/
inductive RawMsg
  | malformed
  | event (e : WSEvent)
  deriving DecidableEq, Repr

/-- Models `json.loads` inside the try block of each handler: a decode
error is an exception, a well-formed message yields the event. -/
def parseMessage : RawMsg → Except String WSEvent
  | .malformed => .error "json decode error"
  | .event e => .ok e

namespace T2T

/-- State of t2t_WebSockets.py: the accumulator `complete_response`. -/
def on_message (s : String) : WSEvent → String
  | .responseCreated => ""
  | .textDelta d => s ++ d
  | _ => s

/-- The full handler body of t2t_WebSockets.py `on_message`: parse the
raw message, dispatch on the `type` tag; the surrounding try/except
absorbs decode errors, leaving `complete_response` untouched.  Totality
of this function is the embedding of "no exception escapes the
handler". -/
def on_raw_message (s : String) (m : RawMsg) : String :=
  match parseMessage m with
  | .ok e => on_message s e
  | .error _ => s

/-- Process a list of inbound events in arrival order. -/
def run_events (evs : List WSEvent) (s : String) : String :=
  evs.foldl on_message s

end T2T

namespace Chat

/-- Shared mutable state of chat_test.py: the accumulator
`complete_response`, the `response_complete` flag, plus a ghost counter
`inflight` instrumenting how many requested responses have not yet
signalled completion (incremented when the run loop sends a request
pair, decremented when `response.done` is handled). -/
structure State where
  complete_response : String
  response_complete : Bool
  inflight : Nat
  deriving DecidableEq, Repr

/-- Initial state of chat_test.py (lines 22-24): empty buffer,
`response_complete = True`, nothing in flight. -/
def initState : State := { complete_response := "", response_complete := true, inflight := 0 }

/-- chat_test.py `on_message` dispatch (lines 87-108). -/
def on_message (s : State) : WSEvent → State
  | .responseCreated => { s with complete_response := "" }
  | .textDelta d => { s with complete_response := s.complete_response ++ d }
  | .responseDone => { s with response_complete := true, inflight := s.inflight - 1 }
  | _ => s

/-- chat_test.py handler body with its try/except boundary: decode
errors leave the whole state unchanged. -/
def on_raw_message (s : State) (m : RawMsg) : State :=
  match parseMessage m with
  | .ok e => on_message s e
  | .error _ => s

/-- One iteration of the sending loop body in chat_test.py `run`
(lines 36-75): a request pair (`conversation.item.create` +
`response.create`) is sent only when `response_complete` is true, and
the flag is cleared before sending. -/
def send_request (s : State) : State :=
  if s.response_complete then
    { s with response_complete := false, inflight := s.inflight + 1 }
  else s

/-- An interleaving step of the interactive session: either the sending
loop runs one iteration, or the receive thread handles one raw
message. -/
inductive Step
  | send
  | msg (m : RawMsg)
  deriving DecidableEq, Repr

def step (s : State) : Step → State
  | .send => send_request s
  | .msg m => on_raw_message s m

/-- A whole interactive session: any interleaving of loop iterations and
inbound messages, from the initial state. -/
def run_session (steps : List Step) : State :=
  steps.foldl step initState

end Chat

namespace Voice

/-- Canonical sample rate of voice_request_response.py
(`self._sample_rate = 48000`). -/
def sampleRate : Nat := 48000

/-- Frame size (`self._samples_per_frame = 960`, 20ms at 48kHz). -/
def samplesPerFrame : Nat := 960

/-- Abstraction of a PCM wave file as read by the `wave` module:
header fields plus the flat interleaved integer sample sequence that
`np.frombuffer` yields from `readframes`. -/
structure WavFile where
  channels : Nat
  sampleWidth : Nat
  fileSampleRate : Nat
  samples : List Int
  deriving DecidableEq, Repr

/-- Round half to even, the convention of `np.round`. -/
def roundHalfEven (q : ℚ) : Int :=
  let f := ⌊q⌋
  let r := q - (f : ℚ)
  if r < 1/2 then f
  else if 1/2 < r then f + 1
  else if f % 2 = 0 then f else f + 1

/-- The resampled buffer length: `new_length = int(len(audio_data) * ratio)`
with `ratio = self._sample_rate / original_sample_rate` — Python `int()`
truncates, which is the floor on these nonnegative values. -/
def newLength (len origRate : Nat) : Nat :=
  (⌊(len : ℚ) * ((sampleRate : ℚ) / (origRate : ℚ))⌋).toNat

/-- `np.linspace(0, len - 1, n)`: `n` evenly spaced rationals from `0`
to `len - 1`. -/
def linspace (len n : Nat) : List ℚ :=
  if n = 0 then []
  else if n = 1 then [0]
  else (List.range n).map (fun (i : Nat) => (i : ℚ) * ((len : ℚ) - 1) / ((n : ℚ) - 1))

/-- The basic resampling of `_load_audio_file` (lines 63-70): pick
`new_length` rounded linspace indices and gather those samples. -/
def resample (data : List ℚ) (origRate : Nat) : List ℚ :=
  let n := newLength data.length origRate
  let indices := (linspace data.length n).map (fun q => (roundHalfEven q).toNat)
  indices.map (fun j => data.getD j 0)

/-- `audio_data.reshape(-1, 2).mean(axis=1)`: stereo-to-mono averaging
of consecutive sample pairs.  Only invoked on even-length buffers; the
odd-length case (where numpy would raise) is cut off before the call. -/
def averagePairs : List ℚ → List ℚ
  | a :: b :: rest => (a + b) / 2 :: averagePairs rest
  | _ => []

/-- Sample-width dispatch of `_load_audio_file` (lines 48-57): 16-bit
samples normalize by 32768, 32-bit by 2147483648, any other width
raises ValueError (modelled as `none`). -/
def normalizeSamples (w : WavFile) : Option (List ℚ) :=
  if w.sampleWidth = 2 then
    some (w.samples.map (fun (x : Int) => (x : ℚ) / 32768))
  else if w.sampleWidth = 4 then
    some (w.samples.map (fun (x : Int) => (x : ℚ) / 2147483648))
  else none

/-- Stereo handling of `_load_audio_file` (lines 59-61): two channels
average into mono; a buffer numpy cannot reshape into pairs raises
(modelled as `none`); any other channel count passes through. -/
def toMono (channels : Nat) (data : List ℚ) : Option (List ℚ) :=
  if channels = 2 then
    if data.length % 2 = 0 then some (averagePairs data) else none
  else some data

/-- Conditional resampling of `_load_audio_file` (lines 63-70): a rate
other than the canonical one resamples (a zero header rate raises
ZeroDivisionError in `ratio`, modelled as `none`); the canonical rate
passes through. -/
def resampleStage (origRate : Nat) (data : List ℚ) : Option (List ℚ) :=
  if origRate ≠ sampleRate then
    if origRate = 0 then none
    else some (resample data origRate)
  else some data

/-- The try-block of `AudioFileTrack._load_audio_file` (lines 38-74):
normalize by sample width, collapse stereo to mono, resample to the
canonical rate.  Any Python exception along the way is `none`. -/
def decodeWav (w : WavFile) : Option (List ℚ) :=
  Option.bind (normalizeSamples w) fun normalized =>
    Option.bind (toMono w.channels normalized) fun mono =>
      resampleStage w.fileSampleRate mono

/-- `AudioFileTrack._load_audio_file` with its except clause (lines
75-79): any decode failure installs 5 seconds of silence at the
canonical rate; both paths end with `_file_loaded = True`. -/
def load_audio_file (w : WavFile) : List ℚ × Bool :=
  match decodeWav w with
  | some data => (data, true)
  | none => (List.replicate (sampleRate * 5) 0, true)

/-- Mutable cursor state of an `AudioFileTrack`: the immutable decoded
buffer, the read position and the running timestamp. -/
structure TrackState where
  audioData : List ℚ
  position : Nat
  timestamp : Nat
  deriving DecidableEq, Repr

/-- `AudioFileTrack.recv` (lines 81-108): past the end of the buffer it
emits a silent frame and leaves the cursor alone; otherwise it slices
the next window, zero-pads it to the frame size and advances the
cursor.  The timestamp advances either way.  Returns the frame data and
the successor state. -/
def recv (s : TrackState) : List ℚ × TrackState :=
  if s.position ≥ s.audioData.length then
    (List.replicate samplesPerFrame 0, { s with timestamp := s.timestamp + samplesPerFrame })
  else
    let endPos := min (s.position + samplesPerFrame) s.audioData.length
    let data := (s.audioData.drop s.position).take (endPos - s.position)
    let padded := data ++ List.replicate (samplesPerFrame - data.length) 0
    (padded,
      { s with position := s.position + samplesPerFrame,
               timestamp := s.timestamp + samplesPerFrame })

/-- State after `n` consecutive `recv` calls. -/
def recvN (s : TrackState) : Nat → TrackState
  | 0 => s
  | n + 1 => recvN (recv s).2 n

/-- The frame payloads of `n` consecutive `recv` calls, in order. -/
def framesFrom (s : TrackState) : Nat → List (List ℚ)
  | 0 => []
  | n + 1 => (recv s).1 :: framesFrom (recv s).2 n

/-- Events dispatched by `on_datachannel_message` in
voice_request_response.py (lines 179-227). -/
inductive DCEvent
  | audioDelta
  | responseCompleted
  | sessionCreated
  | responseStarted
  | responseDone
  | other
  deriving DecidableEq, Repr

/-- The global flags of voice_request_response.py (lines 110-116) plus
a ghost counter `startCount` recording how many times
`MediaRecorder.start` was actually executed. -/
structure VoiceState where
  received_audio : Bool
  recording_started : Bool
  response_started : Bool
  response_done : Bool
  startCount : Nat
  deriving DecidableEq, Repr

/-- Initial flag values (lines 111-116). -/
def initVoiceState : VoiceState :=
  { received_audio := false, recording_started := false,
    response_started := false, response_done := false, startCount := 0 }

/-- `start_recorder` (lines 271-277): a flag-guarded start with no
await point between the test and the set, so under the cooperative
single-threaded event loop the test-and-set is atomic; the scheduled
task is therefore modelled as running synchronously. -/
def start_recorder (s : VoiceState) : VoiceState :=
  if s.recording_started then s
  else { s with recording_started := true, startCount := s.startCount + 1 }

/-- `on_datachannel_message` dispatch (lines 179-227).  The
`response.done` branch reads the `response_started` flag before
overwriting it (the defensive late-start case). -/
def on_datachannel_message (s : VoiceState) : DCEvent → VoiceState
  | .audioDelta =>
      if s.received_audio then s
      else
        let s1 := { s with received_audio := true }
        if s1.recording_started then s1 else start_recorder s1
  | .responseCompleted => { s with response_done := true }
  | .sessionCreated => s
  | .responseStarted =>
      let s1 := { s with response_started := true }
      if s1.recording_started then s1 else start_recorder s1
  | .responseDone =>
      let s1 := { s with response_done := true }
      if s.response_started then s1
      else
        let s2 := { s1 with response_started := true }
        if s2.recording_started then s2 else start_recorder s2
  | .other => s

/-- Process a whole sequence of data-channel events from the initial
flag state. -/
def runDC (events : List DCEvent) : VoiceState :=
  events.foldl on_datachannel_message initVoiceState

/-- The events whose handler branches may invoke `start_recorder`. -/
def isTrigger : DCEvent → Bool
  | .audioDelta => true
  | .responseStarted => true
  | .responseDone => true
  | _ => false

/-- Observable side effects of `run_webrtc_client`
(voice_request_response.py, lines 118-330), in program order.  The
post-negotiation data-channel traffic is abstracted as a single
`exchangeEvents` effect, since no event can flow before the remote
description is applied. -/
inductive Effect
  | createPeerConnection
  | createDataChannel
  | createAudioTrack
  | createRecorder
  | createOffer
  | postOffer
  | applyRemoteDescription
  | exchangeEvents
  | closePeerConnection
  deriving DecidableEq, Repr

/-- Straight-line model of `run_webrtc_client`: the missing-file guard
(lines 130-133) returns False before any object is created; after the
setup and the signaling POST, a status outside 200/201 returns False
(lines 243-246) before the remote description is applied; otherwise
negotiation completes and the session runs to teardown (returning
True, line 330). -/
def run_webrtc_client (inputExists : Bool) (status : Nat) : List Effect × Bool :=
  if inputExists = false then ([], false)
  else
    let setup := [Effect.createPeerConnection, Effect.createDataChannel,
      Effect.createAudioTrack, Effect.createRecorder, Effect.createOffer,
      Effect.postOffer]
    if status = 200 ∨ status = 201 then
      (setup ++ [Effect.applyRemoteDescription, Effect.exchangeEvents,
        Effect.closePeerConnection], true)
    else (setup, false)

end Voice

namespace T2TRTC

/-- Straight-line effect model of `run_webrtc_client` in t2t_WebRTC.py
(lines 71-132): the same negotiation, with a bare `return` (line 120)
on a status outside 200/201, before the remote description is
applied. -/
def run_webrtc_client (status : Nat) : List Voice.Effect :=
  let setup := [Voice.Effect.createPeerConnection, Voice.Effect.createAudioTrack,
    Voice.Effect.createDataChannel, Voice.Effect.createOffer, Voice.Effect.postOffer]
  if status = 200 ∨ status = 201 then
    setup ++ [Voice.Effect.applyRemoteDescription, Voice.Effect.exchangeEvents,
      Voice.Effect.closePeerConnection]
  else setup

end T2TRTC

/-- The buffer length the specification formula predicts, following the
words of the spec: `round(original_length * target_rate / original_rate)`
(to be compared with `Voice.newLength`, the one translated from the
source, which truncates). -/
def specRoundLength (origLen origRate : Nat) : Nat :=
  (round (((origLen : ℚ) * (Voice.sampleRate : ℚ)) / (origRate : ℚ))).toNat

/-! ### Helper lemmas -/

lemma linspace_length (len n : Nat) : (Voice.linspace len n).length = n := by
  unfold Voice.linspace
  split_ifs with h1 h2
  · simp [h1]
  · simp [h2]
  · rw [List.length_map, List.length_range]

lemma resample_length (data : List ℚ) (r : Nat) :
    (Voice.resample data r).length = Voice.newLength data.length r := by
  unfold Voice.resample
  rw [List.length_map, List.length_map, linspace_length]

lemma string_foldl_append (ds : List String) (b : String) :
    ds.foldl (fun r s => r ++ s) b = b ++ ds.foldl (fun r s => r ++ s) "" := by
  induction ds generalizing b with
  | nil => simp [String.append_empty]
  | cons d ds ih =>
    simp only [List.foldl_cons]
    rw [ih (b ++ d), ih ("" ++ d), String.empty_append, String.append_assoc]

lemma string_join_cons (d : String) (ds : List String) :
    String.join (d :: ds) = d ++ String.join ds := by
  show (d :: ds).foldl (fun r s => r ++ s) "" = d ++ ds.foldl (fun r s => r ++ s) ""
  simp only [List.foldl_cons]
  rw [string_foldl_append ds ("" ++ d), String.empty_append]

lemma t2t_foldl_deltas (ds : List String) (b : String) :
    (ds.map WSEvent.textDelta).foldl T2T.on_message b = b ++ String.join ds := by
  induction ds generalizing b with
  | nil => simp [String.join, String.append_empty]
  | cons d ds ih =>
    simp only [List.map_cons, List.foldl_cons]
    rw [string_join_cons]
    show (ds.map WSEvent.textDelta).foldl T2T.on_message (b ++ d) = _
    rw [ih (b ++ d), String.append_assoc]

lemma chat_foldl_deltas (ds : List String) (c : Chat.State) :
    ((ds.map WSEvent.textDelta).foldl Chat.on_message c).complete_response
      = c.complete_response ++ String.join ds := by
  induction ds generalizing c with
  | nil => simp [String.join, String.append_empty]
  | cons d ds ih =>
    simp only [List.map_cons, List.foldl_cons]
    rw [string_join_cons]
    show ((ds.map WSEvent.textDelta).foldl Chat.on_message
      { c with complete_response := c.complete_response ++ d }).complete_response = _
    rw [ih, String.append_assoc]

/-! ### Claim theorems -/

/-- Claim C1: for a response.created event, then deltas d1..dN, then
response.done, the accumulated buffer at the moment response.done is
handled is the concatenation of the deltas in arrival order; a
subsequent response.created resets the buffer to the empty string; the
concrete scenario created, "Hel", "lo", done surfaces "Hello".  Shown
for the t2t_WebSockets.py handler and for the chat_test.py handler. -/
theorem c1_delta_accumulation :
    (∀ (s : String) (ds : List String),
      T2T.run_events
        (WSEvent.responseCreated :: (ds.map WSEvent.textDelta ++ [WSEvent.responseDone])) s
        = String.join ds) ∧
    (∀ (s : String), T2T.on_message s WSEvent.responseCreated = "") ∧
    (∀ (c : Chat.State) (ds : List String),
      (((ds.map WSEvent.textDelta ++ [WSEvent.responseDone]).foldl Chat.on_message
        (Chat.on_message c WSEvent.responseCreated))).complete_response = String.join ds) ∧
    (∀ (c : Chat.State), (Chat.on_message c WSEvent.responseCreated).complete_response = "") ∧
    T2T.run_events [WSEvent.responseCreated, WSEvent.textDelta "Hel",
      WSEvent.textDelta "lo", WSEvent.responseDone] "" = "Hello" := by
  refine ⟨?_, fun s => rfl, ?_, fun c => rfl, rfl⟩
  · intro s ds
    show (WSEvent.responseCreated :: (ds.map WSEvent.textDelta ++ [WSEvent.responseDone])).foldl
      T2T.on_message s = String.join ds
    simp only [List.foldl_cons, List.foldl_append]
    show ([WSEvent.responseDone]).foldl T2T.on_message
      ((ds.map WSEvent.textDelta).foldl T2T.on_message "") = _
    rw [t2t_foldl_deltas, String.empty_append]
    rfl
  · intro c ds
    simp only [List.foldl_append]
    show (([WSEvent.responseDone]).foldl Chat.on_message
      ((ds.map WSEvent.textDelta).foldl Chat.on_message
        { c with complete_response := "" })).complete_response = _
    simp only [List.foldl_cons, List.foldl_nil]
    show ({ ((ds.map WSEvent.textDelta).foldl Chat.on_message
      { c with complete_response := "" }) with
        response_complete := true,
        inflight := _ }).complete_response = _
    rw [show ∀ x : Chat.State, ∀ b k, ({ x with response_complete := b, inflight := k } :
      Chat.State).complete_response = x.complete_response from fun x b k => rfl]
    rw [chat_foldl_deltas, String.empty_append]

/-- Claim C2: a raw message that fails to decode never raises past the
handler boundary (the embedded handlers are total functions) and leaves
the accumulation state unchanged: `complete_response` in
t2t_WebSockets.py, and both `complete_response` and `response_complete`
in chat_test.py. -/
theorem c2_malformed_message_noop (s : String) (c : Chat.State) (m : RawMsg)
    (h : ∃ err, parseMessage m = Except.error err) :
    T2T.on_raw_message s m = s ∧ Chat.on_raw_message c m = c := by
  obtain ⟨err, herr⟩ := h
  cases m with
  | malformed => exact ⟨rfl, rfl⟩
  | event e => simp [parseMessage] at herr

/-- Concrete instantiation of `c2_malformed_message_noop` at a
malformed message and the initial chat state. -/
theorem c2_witness :
    T2T.on_raw_message "buffered text" RawMsg.malformed = "buffered text" ∧
    Chat.on_raw_message Chat.initState RawMsg.malformed = Chat.initState :=
  c2_malformed_message_noop "buffered text" Chat.initState RawMsg.malformed
    ⟨"json decode error", rfl⟩

/-- Claim C3: once the read cursor is at or past the end of the loaded
buffer, every `recv` call yields the fixed-size all-zero frame of
`_samples_per_frame` (960) samples, and the cursor never moves back
before the end, so this persists for every subsequent call. -/
theorem c3_silence_past_end (s : Voice.TrackState) (n : Nat)
    (h : s.position ≥ s.audioData.length) :
    Voice.samplesPerFrame = 960 ∧
    Voice.framesFrom s n = List.replicate n (List.replicate Voice.samplesPerFrame 0) ∧
    (Voice.recvN s n).position = s.position := by
  induction n generalizing s with
  | zero => exact ⟨rfl, rfl, rfl⟩
  | succ n ih =>
    have hrecv : Voice.recv s = (List.replicate Voice.samplesPerFrame 0,
        { s with timestamp := s.timestamp + Voice.samplesPerFrame }) := by
      simp [Voice.recv, h]
    have h2 : ({ s with timestamp := s.timestamp + Voice.samplesPerFrame } :
        Voice.TrackState).position ≥
        ({ s with timestamp := s.timestamp + Voice.samplesPerFrame } :
        Voice.TrackState).audioData.length := h
    obtain ⟨-, hframes, hpos⟩ := ih _ h2
    refine ⟨rfl, ?_, ?_⟩
    · rw [Voice.framesFrom, hrecv]
      simp only [List.replicate_succ, hframes]
    · rw [Voice.recvN, hrecv]
      exact hpos

/-- Concrete instantiation of `c3_silence_past_end`: an exhausted track
(empty buffer, cursor at 0) produces two silent frames and the cursor
stays put. -/
theorem c3_witness :
    Voice.samplesPerFrame = 960 ∧
    Voice.framesFrom ⟨[], 0, 0⟩ 2 =
      List.replicate 2 (List.replicate Voice.samplesPerFrame 0) ∧
    (Voice.recvN ⟨[], 0, 0⟩ 2).position = 0 :=
  c3_silence_past_end ⟨[], 0, 0⟩ 2 (Nat.le_refl 0)

/-- Claim C5: a wave file whose sample width is neither 2 nor 4 bytes is
rejected and `_load_audio_file` installs the documented fallback, a
silence buffer of 5 seconds at the canonical rate (48000 * 5 = 240000
zero samples), after which loading is marked complete. -/
theorem c5_unsupported_width_fallback (w : Voice.WavFile)
    (h2 : w.sampleWidth ≠ 2) (h4 : w.sampleWidth ≠ 4) :
    Voice.load_audio_file w = (List.replicate (Voice.sampleRate * 5) 0, true) ∧
    Voice.sampleRate * 5 = 240000 := by
  have hd : Voice.decodeWav w = none := by
    have hn : Voice.normalizeSamples w = none := by
      simp [Voice.normalizeSamples, h2, h4]
    simp [Voice.decodeWav, hn]
  exact ⟨by simp [Voice.load_audio_file, hd], rfl⟩

/-- Concrete instantiation of `c5_unsupported_width_fallback` at a
24-bit (3-byte) file. -/
theorem c5_witness :
    Voice.load_audio_file ⟨1, 3, 44100, [5, 6]⟩ =
      (List.replicate (Voice.sampleRate * 5) 0, true) ∧
    Voice.sampleRate * 5 = 240000 :=
  c5_unsupported_width_fallback ⟨1, 3, 44100, [5, 6]⟩ (by decide) (by decide)

/-- Claim C4 counterexample: the claim predicts the resampled length is
`round(original_length * target_rate / original_rate)`, but `int()` in
the source truncates.  For the mono 16-bit file with one sample at
32000 Hz, the exact ratio is 1.5 (a value on which the float
computation is exact): the code loads 1 sample where the round formula
predicts 2. -/
theorem c4_round_counterexample :
    (Voice.load_audio_file ⟨1, 2, 32000, [1000]⟩).1.length = 1 ∧
    specRoundLength 1 32000 = 2 ∧
    (Voice.load_audio_file ⟨1, 2, 32000, [1000]⟩).1.length ≠
      specRoundLength (⟨1, 2, 32000, [1000]⟩ : Voice.WavFile).samples.length
        (⟨1, 2, 32000, [1000]⟩ : Voice.WavFile).fileSampleRate := by
  have hd : Voice.decodeWav ⟨1, 2, 32000, [1000]⟩ =
      some (Voice.resample [((1000 : ℚ) / 32768)] 32000) := by
    have hn : Voice.normalizeSamples ⟨1, 2, 32000, [1000]⟩ =
        some [((1000 : ℚ) / 32768)] := by
      norm_num [Voice.normalizeSamples]
    simp [Voice.decodeWav, hn, Voice.toMono, Voice.resampleStage, Voice.sampleRate]
  have hlen : (Voice.load_audio_file ⟨1, 2, 32000, [1000]⟩).1.length =
      Voice.newLength 1 32000 := by
    simp only [Voice.load_audio_file, hd]
    rw [resample_length]
    rfl
  have h1 : Voice.newLength 1 32000 = 1 := by
    unfold Voice.newLength Voice.sampleRate
    norm_num
  have h2 : specRoundLength 1 32000 = 2 := by
    unfold specRoundLength Voice.sampleRate
    rw [round_eq]
    norm_num
    rfl
  refine ⟨hlen.trans h1, h2, ?_⟩
  rw [hlen, h1]
  intro hcontra
  rw [show ((⟨1, 2, 32000, [1000]⟩ : Voice.WavFile).samples.length) = 1 from rfl,
    show ((⟨1, 2, 32000, [1000]⟩ : Voice.WavFile).fileSampleRate) = 32000 from rfl,
    h2] at hcontra
  exact absurd hcontra (by norm_num)

/-- Claim C4 (amended): for a mono 16-bit wave file with a nonzero
sample rate different from 48000 Hz, the loaded buffer length is the
truncation `int(original_length * target_rate / original_rate)` (the
floor of the exact ratio), not its rounding. -/
theorem c4_resampled_length_floor (w : Voice.WavFile)
    (hmono : w.channels = 1) (h16 : w.sampleWidth = 2)
    (hrate : w.fileSampleRate ≠ Voice.sampleRate) (hpos : w.fileSampleRate ≠ 0) :
    (Voice.load_audio_file w).1.length =
      Voice.newLength w.samples.length w.fileSampleRate := by
  have hd : Voice.decodeWav w =
      some (Voice.resample (w.samples.map (fun (x : Int) => (x : ℚ) / 32768))
        w.fileSampleRate) := by
    have hn : Voice.normalizeSamples w =
        some (w.samples.map (fun (x : Int) => (x : ℚ) / 32768)) := by
      simp [Voice.normalizeSamples, h16]
    simp [Voice.decodeWav, hn, Voice.toMono, hmono, Voice.resampleStage, hrate, hpos]
  simp only [Voice.load_audio_file, hd]
  rw [resample_length, List.length_map]

/-- Concrete instantiation of `c4_resampled_length_floor` at a two
sample 44100 Hz mono 16-bit file. -/
theorem c4_witness :
    (Voice.load_audio_file ⟨1, 2, 44100, [5, 7]⟩).1.length =
      Voice.newLength 2 44100 :=
  c4_resampled_length_floor ⟨1, 2, 44100, [5, 7]⟩ rfl rfl (by decide) (by decide)

lemma averagePairs_bounds : ∀ (l : List ℚ), (∀ x ∈ l, -1 ≤ x ∧ x ≤ 1) →
    ∀ q ∈ Voice.averagePairs l, -1 ≤ q ∧ q ≤ 1
  | [], _, q, hq => by simp [Voice.averagePairs] at hq
  | [a], _, q, hq => by simp [Voice.averagePairs] at hq
  | a :: b :: rest, hl, q, hq => by
    rw [Voice.averagePairs] at hq
    rcases List.mem_cons.mp hq with h | h
    · have ha := hl a (by simp)
      have hb := hl b (by simp)
      subst h
      constructor
      · linarith [ha.1, hb.1]
      · linarith [ha.2, hb.2]
    · exact averagePairs_bounds rest (fun x hx => hl x (by simp [hx])) q h

lemma getD_bounds (data : List ℚ) (h : ∀ x ∈ data, -1 ≤ x ∧ x ≤ 1) (j : Nat) :
    -1 ≤ data.getD j 0 ∧ data.getD j 0 ≤ 1 := by
  by_cases hj : j < data.length
  · rw [List.getD_eq_getElem data 0 hj]
    exact h _ (List.getElem_mem hj)
  · rw [List.getD_eq_default data 0 (Nat.le_of_not_lt hj)]
    norm_num

lemma resample_bounds (data : List ℚ) (r : Nat) (h : ∀ x ∈ data, -1 ≤ x ∧ x ≤ 1) :
    ∀ q ∈ Voice.resample data r, -1 ≤ q ∧ q ≤ 1 := by
  intro q hq
  unfold Voice.resample at hq
  rw [List.mem_map] at hq
  obtain ⟨j, _, rfl⟩ := hq
  exact getD_bounds data h j

lemma norm16_bounds (samples : List Int) (h : ∀ x ∈ samples, -32768 ≤ x ∧ x ≤ 32767) :
    ∀ q ∈ samples.map (fun (x : Int) => (x : ℚ) / 32768), -1 ≤ q ∧ q ≤ 1 := by
  intro q hq
  rw [List.mem_map] at hq
  obtain ⟨x, hx, rfl⟩ := hq
  have h1q : (-32768 : ℚ) ≤ (x : ℚ) := by exact_mod_cast (h x hx).1
  have h2q : (x : ℚ) ≤ 32767 := by exact_mod_cast (h x hx).2
  constructor
  · linarith
  · linarith

lemma norm32_bounds (samples : List Int)
    (h : ∀ x ∈ samples, -2147483648 ≤ x ∧ x ≤ 2147483647) :
    ∀ q ∈ samples.map (fun (x : Int) => (x : ℚ) / 2147483648), -1 ≤ q ∧ q ≤ 1 := by
  intro q hq
  rw [List.mem_map] at hq
  obtain ⟨x, hx, rfl⟩ := hq
  have h1q : (-2147483648 : ℚ) ≤ (x : ℚ) := by exact_mod_cast (h x hx).1
  have h2q : (x : ℚ) ≤ 2147483647 := by exact_mod_cast (h x hx).2
  constructor
  · linarith
  · linarith

lemma normalizeSamples_bounds (w : Voice.WavFile)
    (h16 : w.sampleWidth = 2 → ∀ x ∈ w.samples, -32768 ≤ x ∧ x ≤ 32767)
    (h32 : w.sampleWidth = 4 → ∀ x ∈ w.samples, -2147483648 ≤ x ∧ x ≤ 2147483647)
    (normalized : List ℚ) (hn : Voice.normalizeSamples w = some normalized) :
    ∀ q ∈ normalized, -1 ≤ q ∧ q ≤ 1 := by
  unfold Voice.normalizeSamples at hn
  by_cases hw2 : w.sampleWidth = 2
  · rw [if_pos hw2] at hn
    cases hn
    exact norm16_bounds w.samples (h16 hw2)
  · rw [if_neg hw2] at hn
    by_cases hw4 : w.sampleWidth = 4
    · rw [if_pos hw4] at hn
      cases hn
      exact norm32_bounds w.samples (h32 hw4)
    · rw [if_neg hw4] at hn
      cases hn

lemma toMono_bounds (c : Nat) (normalized mono : List ℚ)
    (hn : ∀ q ∈ normalized, -1 ≤ q ∧ q ≤ 1)
    (hm : Voice.toMono c normalized = some mono) :
    ∀ q ∈ mono, -1 ≤ q ∧ q ≤ 1 := by
  unfold Voice.toMono at hm
  by_cases h1 : c = 2
  · rw [if_pos h1] at hm
    by_cases h2 : normalized.length % 2 = 0
    · rw [if_pos h2] at hm
      cases hm
      exact averagePairs_bounds normalized hn
    · rw [if_neg h2] at hm
      cases hm
  · rw [if_neg h1] at hm
    cases hm
    exact hn

lemma resampleStage_bounds (r : Nat) (mono data : List ℚ)
    (hmb : ∀ q ∈ mono, -1 ≤ q ∧ q ≤ 1)
    (hd : Voice.resampleStage r mono = some data) :
    ∀ q ∈ data, -1 ≤ q ∧ q ≤ 1 := by
  unfold Voice.resampleStage at hd
  by_cases h1 : r ≠ Voice.sampleRate
  · rw [if_pos h1] at hd
    by_cases h2 : r = 0
    · rw [if_pos h2] at hd
      cases hd
    · rw [if_neg h2] at hd
      cases hd
      exact resample_bounds mono r hmb
  · rw [if_neg h1] at hd
    cases hd
    exact hmb

lemma decodeWav_bounds (w : Voice.WavFile)
    (h16 : w.sampleWidth = 2 → ∀ x ∈ w.samples, -32768 ≤ x ∧ x ≤ 32767)
    (h32 : w.sampleWidth = 4 → ∀ x ∈ w.samples, -2147483648 ≤ x ∧ x ≤ 2147483647)
    (data : List ℚ) (hd : Voice.decodeWav w = some data) :
    ∀ q ∈ data, -1 ≤ q ∧ q ≤ 1 := by
  unfold Voice.decodeWav at hd
  cases hn : Voice.normalizeSamples w with
  | none => rw [hn] at hd; cases hd
  | some normalized =>
    rw [hn, Option.some_bind] at hd
    cases hm : Voice.toMono w.channels normalized with
    | none => rw [hm] at hd; cases hd
    | some mono =>
      rw [hm, Option.some_bind] at hd
      exact resampleStage_bounds w.fileSampleRate mono data
        (toMono_bounds w.channels normalized mono
          (normalizeSamples_bounds w h16 h32 normalized hn) hm) hd

lemma recv_audioData (s : Voice.TrackState) :
    ((Voice.recv s).2).audioData = s.audioData := by
  unfold Voice.recv
  split_ifs <;> rfl

lemma recvN_audioData (s : Voice.TrackState) (n : Nat) :
    (Voice.recvN s n).audioData = s.audioData := by
  induction n generalizing s with
  | zero => rfl
  | succ n ih => rw [Voice.recvN, ih, recv_audioData]

/-- Claim C10: after `_load_audio_file` completes, by any path (16-bit,
32-bit, stereo averaging, resampling, or silence fallback), every
sample of the loaded buffer lies in the normalized range from -1 to 1
(the range hypotheses say the raw integers fit the declared int16 or
int32 sample format), and the buffer is never mutated afterwards:
`recv` preserves `audioData`, both in one call and after any number of
calls. -/
theorem c10_sample_range_immutable_buffer (w : Voice.WavFile)
    (h16 : w.sampleWidth = 2 → ∀ x ∈ w.samples, -32768 ≤ x ∧ x ≤ 32767)
    (h32 : w.sampleWidth = 4 → ∀ x ∈ w.samples, -2147483648 ≤ x ∧ x ≤ 2147483647) :
    (∀ q ∈ (Voice.load_audio_file w).1, -1 ≤ q ∧ q ≤ 1) ∧
    (∀ s : Voice.TrackState, ((Voice.recv s).2).audioData = s.audioData) ∧
    (∀ (s : Voice.TrackState) (n : Nat), (Voice.recvN s n).audioData = s.audioData) := by
  refine ⟨?_, recv_audioData, recvN_audioData⟩
  intro q hq
  unfold Voice.load_audio_file at hq
  cases hd : Voice.decodeWav w with
  | none =>
    rw [hd] at hq
    have hzero := List.eq_of_mem_replicate hq
    subst hzero
    norm_num
  | some data =>
    rw [hd] at hq
    exact decodeWav_bounds w h16 h32 data hd q hq

/-- Concrete instantiation of `c10_sample_range_immutable_buffer` at a
one sample 16-bit mono file and a one sample track state. -/
theorem c10_witness :
    (-1 ≤ ((16384 : ℚ) / 32768) ∧ ((16384 : ℚ) / 32768) ≤ 1) ∧
    ((Voice.recv ⟨[1/2], 0, 0⟩).2).audioData = [1/2] ∧
    (Voice.recvN ⟨[1/2], 0, 0⟩ 3).audioData = [1/2] := by
  have happ := c10_sample_range_immutable_buffer ⟨1, 2, 48000, [16384]⟩
    (by intro _ x hx; simp at hx; subst hx; norm_num)
    (by intro h; simp at h)
  have hload : (Voice.load_audio_file ⟨1, 2, 48000, [16384]⟩).1 =
      [(16384 : ℚ) / 32768] := by
    have hn : Voice.normalizeSamples ⟨1, 2, 48000, [16384]⟩ =
        some [(16384 : ℚ) / 32768] := by
      norm_num [Voice.normalizeSamples]
    simp [Voice.load_audio_file, Voice.decodeWav, hn, Voice.toMono,
      Voice.resampleStage, Voice.sampleRate]
  refine ⟨happ.1 _ ?_, happ.2.1 ⟨[1/2], 0, 0⟩, happ.2.2 ⟨[1/2], 0, 0⟩ 3⟩
  rw [hload]
  exact List.mem_singleton.mpr rfl

lemma dc_step_props (s : Voice.VoiceState) (e : Voice.DCEvent)
    (hc : s.startCount = (if s.recording_started then 1 else 0))
    (ha : s.received_audio = true → s.recording_started = true)
    (hr : s.response_started = true → s.recording_started = true) :
    ((Voice.on_datachannel_message s e).startCount =
      (if (Voice.on_datachannel_message s e).recording_started then 1 else 0)) ∧
    ((Voice.on_datachannel_message s e).received_audio = true →
      (Voice.on_datachannel_message s e).recording_started = true) ∧
    ((Voice.on_datachannel_message s e).response_started = true →
      (Voice.on_datachannel_message s e).recording_started = true) ∧
    ((Voice.on_datachannel_message s e).recording_started =
      (s.recording_started || Voice.isTrigger e)) := by
  cases e <;>
    cases hra : s.received_audio <;>
    cases hrec : s.recording_started <;>
    cases hrs : s.response_started <;>
    simp_all [Voice.on_datachannel_message, Voice.start_recorder, Voice.isTrigger]

lemma dc_foldl_props (events : List Voice.DCEvent) :
    ∀ (s : Voice.VoiceState),
    s.startCount = (if s.recording_started then 1 else 0) →
    (s.received_audio = true → s.recording_started = true) →
    (s.response_started = true → s.recording_started = true) →
    ((events.foldl Voice.on_datachannel_message s).startCount =
      (if (events.foldl Voice.on_datachannel_message s).recording_started then 1 else 0)) ∧
    ((events.foldl Voice.on_datachannel_message s).recording_started =
      (s.recording_started || events.any Voice.isTrigger)) := by
  induction events with
  | nil =>
    intro s hc _ _
    exact ⟨hc, by simp⟩
  | cons e es ih =>
    intro s hc ha hr
    obtain ⟨hc2, ha2, hr2, hrec2⟩ := dc_step_props s e hc ha hr
    obtain ⟨hcount, hrecfold⟩ := ih (Voice.on_datachannel_message s e) hc2 ha2 hr2
    refine ⟨hcount, ?_⟩
    simp only [List.foldl_cons, List.any_cons]
    rw [hrecfold, hrec2, Bool.or_assoc]

/-- Claim C6: over any sequence of data-channel events in the WebRTC
voice variant, the recorder start action runs at most once, gated by
the `recording_started` flag; and it runs exactly when the sequence
contains a trigger event (a first `response.audio.delta`, a
`response.started`, or a `response.done`), which, applied to every
prefix, places the single start at the earliest such event. -/
theorem c6_recorder_starts_at_most_once (events : List Voice.DCEvent) :
    (Voice.runDC events).startCount ≤ 1 ∧
    (Voice.runDC events).startCount =
      (if events.any Voice.isTrigger then 1 else 0) := by
  obtain ⟨hc, hrec⟩ := dc_foldl_props events Voice.initVoiceState rfl
    (fun h => by cases h) (fun h => by cases h)
  have hcount : (Voice.runDC events).startCount =
      (if events.any Voice.isTrigger then 1 else 0) := by
    show (events.foldl Voice.on_datachannel_message Voice.initVoiceState).startCount = _
    rw [hc, hrec]
    rfl
  refine ⟨?_, hcount⟩
  rw [hcount]
  split_ifs <;> omega

lemma chat_step_inv (s : Chat.State) (a : Chat.Step)
    (h1 : s.inflight ≤ 1) (h2 : s.response_complete = true → s.inflight = 0) :
    (Chat.step s a).inflight ≤ 1 ∧
    ((Chat.step s a).response_complete = true → (Chat.step s a).inflight = 0) := by
  cases a with
  | send =>
    show (Chat.send_request s).inflight ≤ 1 ∧
      ((Chat.send_request s).response_complete = true →
        (Chat.send_request s).inflight = 0)
    unfold Chat.send_request
    by_cases hrc : s.response_complete = true
    · rw [if_pos hrc]
      have h0 := h2 hrc
      exact ⟨by simp [h0], fun hfalse => Bool.noConfusion hfalse⟩
    · rw [if_neg hrc]
      exact ⟨h1, h2⟩
  | msg m =>
    cases m with
    | malformed => exact ⟨h1, h2⟩
    | event e =>
      cases e with
      | sessionCreated => exact ⟨h1, h2⟩
      | itemCreated b => exact ⟨h1, h2⟩
      | responseCreated => exact ⟨h1, h2⟩
      | textDelta d => exact ⟨h1, h2⟩
      | responseDone =>
        constructor
        · show s.inflight - 1 ≤ 1
          omega
        · intro _
          show s.inflight - 1 = 0
          omega
      | other => exact ⟨h1, h2⟩

lemma chat_foldl_inv (steps : List Chat.Step) :
    ∀ (s : Chat.State), s.inflight ≤ 1 → (s.response_complete = true → s.inflight = 0) →
    (steps.foldl Chat.step s).inflight ≤ 1 ∧
    ((steps.foldl Chat.step s).response_complete = true →
      (steps.foldl Chat.step s).inflight = 0) := by
  induction steps with
  | nil => intro s h1 h2; exact ⟨h1, h2⟩
  | cons a as ih =>
    intro s h1 h2
    obtain ⟨h1s, h2s⟩ := chat_step_inv s a h1 h2
    exact ih (Chat.step s a) h1s h2s

/-- Claim C7: in the interactive WebSocket variant, at most one
response accumulation is ever in flight: over any interleaving of
sending loop iterations and inbound messages, the ghost in-flight
counter stays at most 1 and is 0 whenever `response_complete` holds; a
send clears the flag as it increments the counter (it fires only when
the flag is set); and from a cleared flag no step other than a handled
`response.done` message can set the flag again. -/
theorem c7_single_response_inflight :
    (∀ steps : List Chat.Step,
      (Chat.run_session steps).inflight ≤ 1 ∧
      ((Chat.run_session steps).response_complete = true →
        (Chat.run_session steps).inflight = 0)) ∧
    (∀ s : Chat.State, s.response_complete = true →
      (Chat.send_request s).response_complete = false ∧
      (Chat.send_request s).inflight = s.inflight + 1) ∧
    (∀ (s : Chat.State) (a : Chat.Step), s.response_complete = false →
      a ≠ Chat.Step.msg (RawMsg.event WSEvent.responseDone) →
      (Chat.step s a).response_complete = false) := by
  refine ⟨?_, ?_, ?_⟩
  · intro steps
    exact chat_foldl_inv steps Chat.initState (by decide) (fun _ => rfl)
  · intro s hrc
    unfold Chat.send_request
    rw [if_pos hrc]
    exact ⟨rfl, rfl⟩
  · intro s a hf hne
    cases a with
    | send =>
      show (Chat.send_request s).response_complete = false
      unfold Chat.send_request
      rw [if_neg (by simp [hf])]
      exact hf
    | msg m =>
      cases m with
      | malformed => exact hf
      | event e =>
        cases e with
        | sessionCreated => exact hf
        | itemCreated b => exact hf
        | responseCreated => exact hf
        | textDelta d => exact hf
        | responseDone => exact absurd rfl hne
        | other => exact hf

/-- Concrete instantiation of `c7_single_response_inflight`: a session
that sends once and receives its `response.done`, and a cleared-flag
state on which a send attempt leaves the flag cleared. -/
theorem c7_witness :
    ((Chat.run_session [Chat.Step.send,
        Chat.Step.msg (RawMsg.event WSEvent.responseDone)]).inflight = 0) ∧
    (Chat.send_request ⟨"", true, 0⟩).response_complete = false ∧
    (Chat.step ⟨"", false, 1⟩ Chat.Step.send).response_complete = false := by
  refine ⟨(c7_single_response_inflight.1 _).2 (by decide),
    (c7_single_response_inflight.2.1 ⟨"", true, 0⟩ rfl).1,
    c7_single_response_inflight.2.2 ⟨"", false, 1⟩ Chat.Step.send rfl (by decide)⟩

/-- Claim C8: a signaling POST status other than 200 or 201 fails the
whole WebRTC session: the voice variant returns the failure indicator
False, and in both WebRTC variants the remote description is never
applied and no data-channel events are exchanged. -/
theorem c8_bad_status_aborts (status : Nat)
    (h200 : status ≠ 200) (h201 : status ≠ 201) :
    (Voice.run_webrtc_client true status).2 = false ∧
    Voice.Effect.applyRemoteDescription ∉ (Voice.run_webrtc_client true status).1 ∧
    Voice.Effect.exchangeEvents ∉ (Voice.run_webrtc_client true status).1 ∧
    Voice.Effect.applyRemoteDescription ∉ T2TRTC.run_webrtc_client status ∧
    Voice.Effect.exchangeEvents ∉ T2TRTC.run_webrtc_client status := by
  have hc : ¬(status = 200 ∨ status = 201) := by
    rintro (h | h)
    · exact h200 h
    · exact h201 h
  have hv : Voice.run_webrtc_client true status =
      ([Voice.Effect.createPeerConnection, Voice.Effect.createDataChannel,
        Voice.Effect.createAudioTrack, Voice.Effect.createRecorder,
        Voice.Effect.createOffer, Voice.Effect.postOffer], false) := by
    unfold Voice.run_webrtc_client
    rw [if_neg (by simp), if_neg hc]
  have ht : T2TRTC.run_webrtc_client status =
      [Voice.Effect.createPeerConnection, Voice.Effect.createAudioTrack,
        Voice.Effect.createDataChannel, Voice.Effect.createOffer,
        Voice.Effect.postOffer] := by
    unfold T2TRTC.run_webrtc_client
    rw [if_neg hc]
  rw [hv, ht]
  refine ⟨rfl, ?_, ?_, ?_, ?_⟩ <;> decide

/-- Concrete instantiation of `c8_bad_status_aborts` at HTTP status
403. -/
theorem c8_witness :
    (Voice.run_webrtc_client true 403).2 = false ∧
    Voice.Effect.applyRemoteDescription ∉ (Voice.run_webrtc_client true 403).1 ∧
    Voice.Effect.exchangeEvents ∉ (Voice.run_webrtc_client true 403).1 ∧
    Voice.Effect.applyRemoteDescription ∉ T2TRTC.run_webrtc_client 403 ∧
    Voice.Effect.exchangeEvents ∉ T2TRTC.run_webrtc_client 403 :=
  c8_bad_status_aborts 403 (by decide) (by decide)

/-- Claim C9: a missing input file makes the voice-variant
`run_webrtc_client` return False immediately, with no side effects at
all: no peer connection, data channel, audio track or recorder is
created and no connection attempt occurs, for any would-be HTTP
status. -/
theorem c9_missing_input_file (status : Nat) :
    Voice.run_webrtc_client false status = ([], false) ∧
    ∀ e : Voice.Effect, e ∉ (Voice.run_webrtc_client false status).1 := by
  refine ⟨rfl, ?_⟩
  intro e h
  rw [show Voice.run_webrtc_client false status = ([], false) from rfl] at h
  exact List.not_mem_nil e h

/-- Concrete instantiation of `c9_missing_input_file` at status 500 and
the peer-connection effect. -/
theorem c9_witness :
    Voice.run_webrtc_client false 500 = ([], false) ∧
    Voice.Effect.createPeerConnection ∉ (Voice.run_webrtc_client false 500).1 :=
  ⟨(c9_missing_input_file 500).1,
    (c9_missing_input_file 500).2 Voice.Effect.createPeerConnection⟩
